import Mathlib

/-!
Shallow embedding of the image utilities in `bootcamp_utils/viz.py`.

Images are modelled over the rationals.  A single channel is a flat
`List ℚ` (every operation of the source on a channel is elementwise or a
global max/min, so the 2-D layout is irrelevant for the merge); a full
n-dimensional array, where the shape itself is inspected, is modelled by
`NDArray` carrying an explicit shape vector and flat data.  numpy raises
on `max`/`min` of an empty array, so theorems about extrema carry
nonemptiness hypotheses; `listMax`/`listMin` return 0 on `[]` only to be
total.
-/

/-- Maximum entry of a list of rationals (numpy `arr.max()` on a nonempty
array); 0 on the empty list, which numpy instead rejects. -/
def listMax : List ℚ → ℚ
  | [] => 0
  | x :: xs => xs.foldl max x

/-- Minimum entry of a list of rationals (numpy `arr.min()` on a nonempty
array); 0 on the empty list, which numpy instead rejects. -/
def listMin : List ℚ → ℚ
  | [] => 0
  | x :: xs => xs.foldl min x

/-- `(arr > 0).astype(float)`: 1.0 where the entry is strictly positive,
0.0 elsewhere. -/
def posMask (l : List ℚ) : List ℚ :=
  l.map (fun x => if 0 < x then 1 else 0)

/-- `(arr - lo) / (hi - lo)`, the linear rescaling of a channel. -/
def scaleChannel (lo hi : ℚ) (l : List ℚ) : List ℚ :=
  l.map (fun x => (x - lo) / (hi - lo))

/-- Whether an `Except` result is a success. -/
def exceptOk : Except String α → Bool
  | Except.ok _ => true
  | Except.error _ => false

/-- Guard of viz.py lines 317-323: some effective channel max is below the
channel's actual max.  A `none` bound was already replaced by the actual
max (lines 301-307), so only explicit bounds can trip this. -/
def im_merge_max_bad (im0 im1 : List ℚ) (im2 : Option (List ℚ))
    (im0max im1max im2max : Option ℚ) : Bool :=
  decide (im0max.getD (listMax im0) < listMax im0) ||
  decide (im1max.getD (listMax im1) < listMax im1) ||
  (match im2 with
   | some l => decide (im2max.getD (listMax l) < listMax l)
   | none => false)

/-- Guard of viz.py lines 325-331: some effective channel min is above the
channel's actual min. -/
def im_merge_min_bad (im0 im1 : List ℚ) (im2 : Option (List ℚ))
    (im0min im1min im2min : Option ℚ) : Bool :=
  decide (listMin im0 < im0min.getD (listMin im0)) ||
  decide (listMin im1 < im1min.getD (listMin im1)) ||
  (match im2 with
   | some l => decide (listMin l < im2min.getD (listMin l))
   | none => false)

/-- Scaling stage of `im_merge` (viz.py lines 333-349), producing the three
channels fed to the colour composition.  The source's degenerate branches
for the second and third channels assign the positivity mask to `im_0`
(the first channel, already scaled at that point) while leaving the
degenerate channel itself untouched; this embedding reproduces that
behaviour exactly. -/
def im_merge_scaled (im0 im1 : List ℚ) (im2 : Option (List ℚ))
    (im0max im1max im2max im0min im1min im2min : Option ℚ) :
    List ℚ × List ℚ × List ℚ :=
  let m0x := im0max.getD (listMax im0)
  let m1x := im1max.getD (listMax im1)
  let m0n := im0min.getD (listMin im0)
  let m1n := im1min.getD (listMin im1)
  let s0 := if m0n < m0x then scaleChannel m0n m0x im0 else posMask im0
  let s1 := if m1n < m1x then scaleChannel m1n m1x im1 else im1
  let s0 := if m1n < m1x then s0 else posMask s0
  match im2 with
  | none => (s0, s1, List.replicate im0.length 0)
  | some l =>
    let m2x := im2max.getD (listMax l)
    let m2n := im2min.getD (listMin l)
    if m2n < m2x then (s0, s1, scaleChannel m2n m2x l)
    else (posMask s0, s1, l)

/-- CMY composition of `im_merge` (viz.py lines 352-358): red receives the
second and third channels, green the first and third, blue the first and
second, and each output channel is then divided by its own maximum. -/
def cmy_compose (s : List ℚ × List ℚ × List ℚ) : List ℚ × List ℚ × List ℚ :=
  let r := List.zipWith (· + ·) s.2.1 s.2.2
  let g := List.zipWith (· + ·) s.1 s.2.2
  let b := List.zipWith (· + ·) s.1 s.2.1
  (r.map (fun x => x / listMax r),
   g.map (fun x => x / listMax g),
   b.map (fun x => x / listMax b))

/-- `im_merge` of viz.py (lines 251-365), returning the red, green and blue
output channels.  Division follows the field convention `x / 0 = 0` where
numpy float division would produce `nan`/`inf`. -/
def im_merge (im0 im1 : List ℚ) (im2 : Option (List ℚ))
    (im0max im1max im2max im0min im1min im2min : Option ℚ) (cmy : Bool) :
    Except String (List ℚ × List ℚ × List ℚ) :=
  if im_merge_max_bad im0 im1 im2 im0max im1max im2max then
    Except.error "Inputted max of channel < max of inputted channel."
  else if im_merge_min_bad im0 im1 im2 im0min im1min im2min then
    Except.error "Inputted min of channel > min of inputted channel."
  else
    Except.ok
      (if cmy then
        cmy_compose (im_merge_scaled im0 im1 im2 im0max im1max im2max im0min im1min im2min)
      else
        im_merge_scaled im0 im1 im2 im0max im1max im2max im0min im1min im2min)

/-- **C1.** Evaluation of `im_merge` at a degenerate (constant) second
channel, RGB mode: the code leaves the degenerate second channel `[5,5,5]`
unscaled and instead replaces the first channel by the positivity mask of
its scaled values (`[0,1/2,1]` becomes `[0,1,1]`), contradicting the claim
that the degenerate channel itself is masked and the non-degenerate
channels are untouched. -/
theorem im_merge_degenerate_second_channel :
    im_merge [0, 1, 2] [5, 5, 5] none none none none none none none false =
      Except.ok ([0, 1, 1], [5, 5, 5], [0, 0, 0]) := by
  norm_num [im_merge, im_merge_max_bad, im_merge_min_bad, im_merge_scaled,
    listMax, listMin, posMask, scaleChannel, List.foldl, List.replicate, max_def, min_def]

/-- **C2.** Supplying an explicit all-zero third channel is observably
different from omitting it: the explicit zero channel is degenerate
(max = min = 0), which triggers the fallback that overwrites the first
channel with its positivity mask, while omission merely appends a zero
third channel. -/
theorem im_merge_zero_third_channel_mismatch :
    im_merge [0, 1/2, 1] [0, 1/2, 1] none none none none none none none false =
        Except.ok ([0, 1/2, 1], [0, 1/2, 1], [0, 0, 0]) ∧
      im_merge [0, 1/2, 1] [0, 1/2, 1] (some [0, 0, 0])
          none none none none none none false =
        Except.ok ([0, 1, 1], [0, 1/2, 1], [0, 0, 0]) ∧
      ([0, 1/2, 1] : List ℚ) ≠ [0, 1, 1] := by
  refine ⟨?_, ?_, by norm_num⟩ <;>
    norm_num [im_merge, im_merge_max_bad, im_merge_min_bad, im_merge_scaled,
      listMax, listMin, posMask, scaleChannel, List.foldl, List.replicate, max_def, min_def]

/-- **C3.** Evaluation of `im_merge` in CMY mode at an accepted input whose
second channel is a degenerate negative constant: the degenerate channel is
left unscaled (the fallback reassigns the first channel instead), so the
red and blue outputs contain the entry 5/4, which lies outside the unit
interval claimed for every entry of the result. -/
theorem im_merge_cmy_entry_above_one :
    im_merge [1, 2] [-5, -5] (some [0, 10]) none none none none none none true =
        Except.ok ([5/4, 1], [0, 1], [5/4, 1]) ∧
      ¬ ((5/4 : ℚ) ≤ 1) := by
  refine ⟨?_, by norm_num⟩
  norm_num [im_merge, im_merge_max_bad, im_merge_min_bad, im_merge_scaled,
    cmy_compose, listMax, listMin, posMask, scaleChannel, List.foldl,
    List.zipWith, max_def, min_def]

/-- Division by a fixed nonnegative rational commutes with a `foldl max`. -/
theorem foldl_max_div (m : ℚ) (hm : 0 ≤ m) :
    ∀ (xs : List ℚ) (x : ℚ),
      (xs.map fun y => y / m).foldl max (x / m) = xs.foldl max x / m := by
  intro xs
  induction xs with
  | nil => intro x; rfl
  | cons a l ih =>
    intro x
    simpa [List.foldl, max_div_div_right hm] using ih (max x a)

/-- Dividing every entry of a nonempty list by a fixed nonnegative rational
divides its maximum by the same amount. -/
theorem listMax_map_div (l : List ℚ) (m : ℚ) (hm : 0 ≤ m) (h : l ≠ []) :
    listMax (l.map fun y => y / m) = listMax l / m := by
  cases l with
  | nil => exact absurd rfl h
  | cons x xs => simpa [listMax] using foldl_max_div m hm xs x

/-- Normalization step of `imshow` (viz.py lines 112-114): an image whose
maximum exceeds 255 is divided elementwise by its own maximum (the
float conversion is a no-op over ℚ); otherwise the image passes through. -/
def imshow_norm (im : List ℚ) : List ℚ :=
  if 255 < listMax im then im.map (fun x => x / listMax im) else im

/-- **C7.** The `imshow` preprocessing divides an image by its own maximum
exactly when that maximum exceeds 255, in which case the resulting maximum
is exactly 1; images with maximum at most 255 pass through unchanged. -/
theorem imshow_norm_spec (im : List ℚ) (h : im ≠ []) :
    (255 < listMax im →
      imshow_norm im = im.map (fun x => x / listMax im) ∧
        listMax (imshow_norm im) = 1) ∧
    (listMax im ≤ 255 → imshow_norm im = im) := by
  constructor
  · intro hgt
    have hpos : (0 : ℚ) < listMax im := lt_trans (by norm_num) hgt
    refine ⟨by simp [imshow_norm, hgt], ?_⟩
    rw [imshow_norm, if_pos hgt, listMax_map_div im (listMax im) hpos.le h,
      div_self hpos.ne']
  · intro hle
    simp [imshow_norm, not_lt.mpr hle]

/-- Witness for C7 at the concrete image `[300, 50]`, whose maximum 300
exceeds 255. -/
theorem imshow_norm_spec_witness :
    imshow_norm [300, 50] = [300, 50].map (fun x => x / listMax [300, 50]) ∧
      listMax (imshow_norm [300, 50]) = 1 :=
  (imshow_norm_spec [300, 50] (by simp)).1
    (by norm_num [listMax, List.foldl, max_def])

/-- Two lowercase hexadecimal digits for a byte value, as Python's
format item `0:02x` renders the packed component values of
`rgb_frac_to_hex` (viz.py lines 443-445). -/
def hexByte (n : Nat) : String :=
  let s := Nat.toDigits 16 n
  String.mk (List.replicate (2 - s.length) '0' ++ s)

/-- `rgb_frac_to_hex` of viz.py (lines 414-445).  The triple type already
enforces the source's length-3 check (line 437); the range check is
line 440, and each component is converted with `int(component * 255)`,
which truncates -- equal to the floor on the nonnegative values the range
check admits. -/
def rgb_frac_to_hex (rgb : ℚ × ℚ × ℚ) : Except String String :=
  if (rgb.1 < 0 ∨ rgb.2.1 < 0 ∨ rgb.2.2 < 0) ∨
      (1 < rgb.1 ∨ 1 < rgb.2.1 ∨ 1 < rgb.2.2) then
    Except.error "RGB values must be between 0 and 1."
  else
    Except.ok ("#" ++ hexByte (Int.toNat ⌊rgb.1 * 255⌋) ++
      hexByte (Int.toNat ⌊rgb.2.1 * 255⌋) ++ hexByte (Int.toNat ⌊rgb.2.2 * 255⌋))

/-- **C8.** `rgb_frac_to_hex` maps `(0.65, 0.23, 1.0)` to `"#a53aff"` and
`(1.0, 1.0, 1.0)` to `"#ffffff"`. -/
theorem rgb_frac_to_hex_examples :
    rgb_frac_to_hex (13/20, 23/100, 1) = Except.ok "#a53aff" ∧
      rgb_frac_to_hex (1, 1, 1) = Except.ok "#ffffff" := by
  have h1 : ⌊(13/20 : ℚ) * 255⌋ = 165 := by
    rw [Int.floor_eq_iff]; norm_num
  have h2 : ⌊(23/100 : ℚ) * 255⌋ = 58 := by
    rw [Int.floor_eq_iff]; norm_num
  have h3 : ⌊(1 : ℚ) * 255⌋ = 255 := by
    rw [Int.floor_eq_iff]; norm_num
  constructor
  · rw [rgb_frac_to_hex, if_neg (by norm_num)]
    simp only [h1, h2, h3]
    rfl
  · rw [rgb_frac_to_hex, if_neg (by norm_num)]
    simp only [h3]
    rfl

/-- **C10.** `rgb_frac_to_hex` truncates rather than rounds: every
component strictly between 254/255 and 1 is emitted as `fe` (255·x has
floor 254), never rounded up to `ff`. -/
theorem rgb_frac_to_hex_truncates (x : ℚ) (h1 : 254/255 < x) (h2 : x < 1) :
    rgb_frac_to_hex (x, x, x) = Except.ok "#fefefe" := by
  have hx0 : (0 : ℚ) ≤ x := le_trans (by norm_num) h1.le
  have hfloor : ⌊x * 255⌋ = 254 := by
    rw [Int.floor_eq_iff]
    constructor
    · push_cast
      linarith
    · push_cast
      linarith
  rw [rgb_frac_to_hex, if_neg]
  · simp only [hfloor]
    rfl
  · simp only [not_or, not_lt]
    exact ⟨⟨hx0, hx0, hx0⟩, h2.le, h2.le, h2.le⟩

/-- Witness for C10 at `x = 509/510`, for which 255·x = 254.5: truncation
yields `fe` where rounding would yield `ff`. -/
theorem rgb_frac_to_hex_truncates_witness :
    rgb_frac_to_hex (509/510, 509/510, 509/510) = Except.ok "#fefefe" :=
  rgb_frac_to_hex_truncates (509/510) (by norm_num) (by norm_num)

/-- A numpy ndarray: an explicit shape vector together with the flat
(row-major) data. -/
structure NDArray where
  shape : List Nat
  data : List ℚ

/-- Conversion of one float pixel component in [0,1] to an 8-bit value
(`skimage.img_as_ubyte`): multiply by 255 and round to the nearest
integer.  The library's tie-breaking at exact halves is immaterial to the
claims below; ties round up here. -/
def ubyte (x : ℚ) : Nat :=
  Int.toNat ⌊x * 255 + 1/2⌋

/-- Value of the 32-bit word holding the little-endian bytes
`[r, g, b, 255]`, i.e. the RGBA pixel with full-opacity alpha produced by
viz.py lines 402-411.  The source reinterprets the same four bytes as a
signed 32-bit integer; the bit pattern is identical. -/
def packRGBA (r g b : Nat) : Nat :=
  r + 256 * g + 65536 * b + 16777216 * 255

/-- Group a flat list into consecutive RGB triples. -/
def chunk3 : List ℚ → List (ℚ × ℚ × ℚ)
  | r :: g :: b :: rest => (r, g, b) :: chunk3 rest
  | _ => []

/-- Split flat row-major data of an (n, m, 3) array into n rows of m RGB
pixels. -/
def splitRows : Nat → Nat → List ℚ → List (List (ℚ × ℚ × ℚ))
  | 0, _, _ => []
  | n + 1, m, l => chunk3 (l.take (3 * m)) :: splitRows n m (l.drop (3 * m))

/-- `rgb_to_rgba32` of viz.py (lines 368-411): check the shape is
(n, m, 3), check all values lie in [0,1], convert to 8-bit, append an
opaque alpha byte, pack each pixel into one 32-bit value, and flip the
row order when requested. -/
def rgb_to_rgba32 (a : NDArray) (flip : Bool) : Except String (List (List Nat)) :=
  if a.shape.length ≠ 3 ∨ a.shape.getD 2 0 ≠ 3 then
    Except.error "Input image is not RGB."
  else if a.data.any (fun x => decide (x < 0)) || a.data.any (fun x => decide (1 < x)) then
    Except.error "All pixel values must be between 0 and 1."
  else
    let rows := (splitRows (a.shape.getD 0 0) (a.shape.getD 1 0) a.data).map
      (fun row => row.map (fun p => packRGBA (ubyte p.1) (ubyte p.2.1) (ubyte p.2.2)))
    Except.ok (if flip then rows.reverse else rows)

/-- **C5.** `rgb_to_rgba32` succeeds exactly when the input is a
3-dimensional array whose last axis has length 3 and all of whose entries
lie in [0,1]; otherwise it raises. -/
theorem rgb_to_rgba32_ok_iff (a : NDArray) (flip : Bool) :
    exceptOk (rgb_to_rgba32 a flip) = true ↔
      (a.shape.length = 3 ∧ a.shape.getD 2 0 = 3 ∧
        ∀ x ∈ a.data, 0 ≤ x ∧ x ≤ 1) := by
  rw [rgb_to_rgba32]
  by_cases hsh : a.shape.length ≠ 3 ∨ a.shape.getD 2 0 ≠ 3
  · rw [if_pos hsh]
    simp only [exceptOk, Bool.false_eq_true, false_iff]
    rintro ⟨h1, h2, -⟩
    rcases hsh with h | h
    · exact h h1
    · exact h h2
  · rw [if_neg hsh]
    push_neg at hsh
    by_cases hany : (a.data.any (fun x => decide (x < 0)) ||
        a.data.any fun x => decide (1 < x)) = true
    · rw [if_pos hany]
      simp only [exceptOk, Bool.false_eq_true, false_iff]
      rintro ⟨-, -, hall⟩
      simp only [Bool.or_eq_true, List.any_eq_true, decide_eq_true_eq] at hany
      rcases hany with ⟨x, hx, hlt⟩ | ⟨x, hx, hlt⟩
      · exact absurd hlt (not_lt.mpr (hall x hx).1)
      · exact absurd hlt (not_lt.mpr (hall x hx).2)
    · rw [if_neg hany]
      rw [Bool.not_eq_true, Bool.or_eq_false_iff] at hany
      simp only [exceptOk, true_iff]
      refine ⟨hsh.1, hsh.2, fun x hx => ?_⟩
      have h1 := hany.1
      have h2 := hany.2
      simp only [List.any_eq_false, decide_eq_true_eq] at h1 h2
      exact ⟨not_lt.mp (h1 x hx), not_lt.mp (h2 x hx)⟩

/-- **C6.** On every valid 3-channel input with all values in [0,1],
packing with the flip enabled yields exactly the row-reversed result of
packing with the flip disabled. -/
theorem rgb_to_rgba32_flip_eq_reverse (a : NDArray)
    (hlen : a.shape.length = 3) (hlast : a.shape.getD 2 0 = 3)
    (hrange : ∀ x ∈ a.data, 0 ≤ x ∧ x ≤ 1) :
    rgb_to_rgba32 a true = Except.map List.reverse (rgb_to_rgba32 a false) := by
  have hsh : ¬(a.shape.length ≠ 3 ∨ a.shape.getD 2 0 ≠ 3) := by
    simp only [not_or, ne_eq, not_not]
    exact ⟨hlen, hlast⟩
  have hany : (a.data.any (fun x => decide (x < 0)) ||
      a.data.any fun x => decide (1 < x)) = false := by
    simp only [Bool.or_eq_false_iff, List.any_eq_false, decide_eq_true_eq]
    exact ⟨fun x hx => not_lt.mpr (hrange x hx).1,
      fun x hx => not_lt.mpr (hrange x hx).2⟩
  rw [rgb_to_rgba32, rgb_to_rgba32, if_neg hsh, if_neg hsh, hany]
  rfl

/-- Witness for C6 at a concrete 2×1 image with in-range values. -/
theorem rgb_to_rgba32_flip_eq_reverse_witness :
    rgb_to_rgba32 ⟨[2, 1, 3], [0, 1/2, 1, 1, 0, 1/4]⟩ true =
      Except.map List.reverse
        (rgb_to_rgba32 ⟨[2, 1, 3], [0, 1/2, 1, 1, 0, 1/4]⟩ false) :=
  rgb_to_rgba32_flip_eq_reverse _ rfl rfl
    (by intro x hx; fin_cases hx <;> norm_num)

/-- Lowercasing of a Python string (`str.lower()` on the ASCII color-mapper
names used by `imshow`). -/
def strLower (s : String) : String :=
  String.mk (s.data.map Char.toLower)

/-- Test of viz.py line 131: the color mapper is `None` or lowercases to
`"cmy"`. -/
def colorMapperIsCMY : Option String → Bool
  | none => true
  | some s => strLower s == "cmy"

/-- Test of viz.py line 142: the color mapper lowercases to `"rgb"`. -/
def colorMapperIsRGB : Option String → Bool
  | none => false
  | some s => strLower s == "rgb"

/-- Color-image branch of `imshow` (viz.py lines 130-154): the image's
three channels (the `np.rollaxis` unpacking, here the three component
projections) are merged, passing the single `min_intensity` as the minimum
bound of every channel and the single `max_intensity` as the maximum bound
of every channel. -/
def imshow_color (im : List (ℚ × ℚ × ℚ)) (color_mapper : Option String)
    (min_intensity max_intensity : Option ℚ) :
    Except String (List ℚ × List ℚ × List ℚ) :=
  if colorMapperIsCMY color_mapper then
    im_merge (im.map (·.1)) (im.map (·.2.1)) (some (im.map (·.2.2)))
      max_intensity max_intensity max_intensity
      min_intensity min_intensity min_intensity true
  else if colorMapperIsRGB color_mapper then
    im_merge (im.map (·.1)) (im.map (·.2.1)) (some (im.map (·.2.2)))
      max_intensity max_intensity max_intensity
      min_intensity min_intensity min_intensity false
  else
    Except.error "Invalid color mapper for color image."

/-- **C9.** In both the default(cmy) and the rgb branch, `imshow` forwards
its single `min_intensity` argument as the minimum bound of all three
channels of the merge and its single `max_intensity` argument as the
maximum bound of all three channels, so per-channel bounds cannot be set
through `imshow`. -/
theorem imshow_color_uniform_bounds (im : List (ℚ × ℚ × ℚ))
    (minI maxI : Option ℚ) :
    imshow_color im none minI maxI =
        im_merge (im.map (·.1)) (im.map (·.2.1)) (some (im.map (·.2.2)))
          maxI maxI maxI minI minI minI true ∧
      imshow_color im (some "rgb") minI maxI =
        im_merge (im.map (·.1)) (im.map (·.2.1)) (some (im.map (·.2.2)))
          maxI maxI maxI minI minI minI false := by
  exact ⟨rfl, rfl⟩

/-- An explicitly supplied maximum bound that is tighter than the
channel's actual maximum. -/
def tightMax (bound : Option ℚ) (chan : List ℚ) : Bool :=
  match bound with
  | some b => decide (b < listMax chan)
  | none => false

/-- An explicitly supplied minimum bound that is tighter than the
channel's actual minimum. -/
def tightMin (bound : Option ℚ) (chan : List ℚ) : Bool :=
  match bound with
  | some b => decide (listMin chan < b)
  | none => false

/-- The effective maximum (explicit bound, else the data maximum) is below
the data maximum exactly for an explicit bound below the data maximum. -/
theorem tightMax_eq_decide (o : Option ℚ) (l : List ℚ) :
    decide (o.getD (listMax l) < listMax l) = tightMax o l := by
  cases o with
  | none => simp [tightMax]
  | some b => rfl

/-- The effective minimum (explicit bound, else the data minimum) is above
the data minimum exactly for an explicit bound above the data minimum. -/
theorem tightMin_eq_decide (o : Option ℚ) (l : List ℚ) :
    decide (listMin l < o.getD (listMin l)) = tightMin o l := by
  cases o with
  | none => simp [tightMin]
  | some b => rfl

/-- The max-bound guard of `im_merge` trips exactly when some supplied
channel has an explicit max bound below its data maximum. -/
theorem im_merge_max_bad_eq (im0 im1 : List ℚ) (im2 : Option (List ℚ))
    (im0max im1max im2max : Option ℚ) :
    im_merge_max_bad im0 im1 im2 im0max im1max im2max =
      (tightMax im0max im0 || tightMax im1max im1 ||
        im2.elim false fun l => tightMax im2max l) := by
  rw [im_merge_max_bad.eq_def, tightMax_eq_decide, tightMax_eq_decide]
  cases im2 with
  | none => rfl
  | some l =>
    show (tightMax im0max im0 || tightMax im1max im1 ||
        decide (im2max.getD (listMax l) < listMax l)) =
      (tightMax im0max im0 || tightMax im1max im1 || tightMax im2max l)
    rw [tightMax_eq_decide]

/-- The min-bound guard of `im_merge` trips exactly when some supplied
channel has an explicit min bound above its data minimum. -/
theorem im_merge_min_bad_eq (im0 im1 : List ℚ) (im2 : Option (List ℚ))
    (im0min im1min im2min : Option ℚ) :
    im_merge_min_bad im0 im1 im2 im0min im1min im2min =
      (tightMin im0min im0 || tightMin im1min im1 ||
        im2.elim false fun l => tightMin im2min l) := by
  rw [im_merge_min_bad.eq_def, tightMin_eq_decide, tightMin_eq_decide]
  cases im2 with
  | none => rfl
  | some l =>
    show (tightMin im0min im0 || tightMin im1min im1 ||
        decide (listMin l < im2min.getD (listMin l))) =
      (tightMin im0min im0 || tightMin im1min im1 || tightMin im2min l)
    rw [tightMin_eq_decide]

/-- **C4.** `im_merge` raises an error if and only if some explicitly
supplied bound of a supplied channel is tighter than that channel's actual
extrema: an explicit max below the data max, or an explicit min above the
data min.  Bounds equal to or looser than the data extrema are accepted.
The nonemptiness hypotheses reflect numpy's rejection of extrema of empty
arrays. -/
theorem im_merge_error_iff (im0 im1 : List ℚ) (im2 : Option (List ℚ))
    (im0max im1max im2max im0min im1min im2min : Option ℚ) (cmy : Bool)
    (_h0 : im0 ≠ []) (_h1 : im1 ≠ []) (_h2 : ∀ l, im2 = some l → l ≠ []) :
    exceptOk (im_merge im0 im1 im2 im0max im1max im2max
        im0min im1min im2min cmy) = false ↔
      ((tightMax im0max im0 || tightMax im1max im1 ||
          im2.elim false fun l => tightMax im2max l) ||
        (tightMin im0min im0 || tightMin im1min im1 ||
          im2.elim false fun l => tightMin im2min l)) = true := by
  rw [im_merge, im_merge_max_bad_eq, im_merge_min_bad_eq]
  by_cases hA : (tightMax im0max im0 || tightMax im1max im1 ||
      im2.elim false fun l => tightMax im2max l) = true
  · rw [if_pos hA]
    simp [exceptOk, hA]
  · rw [if_neg hA]
    rw [Bool.not_eq_true] at hA
    by_cases hB : (tightMin im0min im0 || tightMin im1min im1 ||
        im2.elim false fun l => tightMin im2min l) = true
    · rw [if_pos hB]
      simp [exceptOk, hA, hB]
    · rw [if_neg hB]
      rw [Bool.not_eq_true] at hB
      simp [exceptOk, hA, hB]

/-- Witness for C4: with three supplied nonempty channels and an explicit
third-channel min bound 3 above the data minimum 2, the merge errors and
the tight-bound disjunction holds. -/
theorem im_merge_error_iff_witness :
    exceptOk (im_merge [0, 1] [0, 1] (some [2, 3])
        none none none none none (some 3) true) = false :=
  (im_merge_error_iff [0, 1] [0, 1] (some [2, 3])
      none none none none none (some 3) true
      (by simp) (by simp) (by intro l hl; cases hl; simp)).mpr
    (by norm_num [tightMax, tightMin, listMin, listMax, List.foldl,
      min_def, max_def])
